import Mathlib

/-!
Verification of the MassSpecGym benchmark harness
(`massspecgym/datasets.py`, `massspecgym/models/base.py`,
`massspecgym/models/simulation/base.py`) against its natural-language
specification.

Python floating-point tensors are embedded as lists of rationals; per-sample
tensors (one entry per batch element) are `List ℚ`, and elementwise torch
operations become `List.map` / `List.zipWith`.  Transcendental functions
(`exp`, `sqrt`, `log`) that the numeric helpers use have no computable
rational counterpart, so definitions that need them take them as explicit
function parameters; none of the proved properties depends on their values.
-/

namespace MassSpecGym

/-- Translated from `get_batch_metric_reduce_fn` in
`src/massspecgym/models/simulation/base.py` (lines 152-163): the returned
closure `_batch_metric_reduce`.  When `sample_weight` is false the weights are
replaced by all ones (`torch.ones_like`); then the weight total, the weighted
score total and the weighted mean are computed by summation along dim 0. -/
def batch_metric_reduce (sample_weight : Bool) (scores weights : List ℚ) :
    ℚ × ℚ × ℚ :=
  let weights := if sample_weight then weights else weights.map (fun _ => (1 : ℚ))
  let w_total := weights.sum
  let w_score_total := (List.zipWith (fun s w => s * w) scores weights).sum
  let w_mean := w_score_total / w_total
  (w_mean, w_score_total, w_total)

/-! ## Spec-modelled numeric helpers

The module `massspecgym.simulation_utils` (`spec_utils`, `misc_utils`) is
imported by `src/massspecgym/models/simulation/base.py` but its code is not
under `src/`.  The definitions below model it from the spec's words: "cosine
distance between sparsely-represented, variable-length peak lists binned by
mass" and "intensities ... L1-normalized per spectrum". -/

/-- Modelled from the spec: `batched_l1_normalize` from
`massspecgym.simulation_utils.spec_utils` (not under `src/`).  The spec says
intensities are "L1-normalized per spectrum": each entry is divided by the sum
of the absolute values of the entries sharing its batch index. -/
def batched_l1_normalize (ints : List ℚ) (batch_idxs : List ℕ) : List ℚ :=
  List.zipWith
    (fun x b =>
      x / (List.zipWith (fun y b2 => if b2 = b then |y| else 0) ints batch_idxs).sum)
    ints batch_idxs

/-- Modelled from the spec: number of mass bins for binning a peak list up to
`mz_max` at resolution `mz_bin_res`. -/
def num_bins (mz_max mz_bin_res : ℚ) : ℕ := ⌈mz_max / mz_bin_res⌉₊

/-- Modelled from the spec: the bin index of a peak at mass `mz` for bin width
`mz_bin_res`. -/
def bin_of (mz_bin_res mz : ℚ) : ℕ := ⌊mz / mz_bin_res⌋₊

/-- Parallel peak-list triples `(mz, logprob, batch_idx)` of a sparse batched
spectrum tensor. -/
def peaks (mzs logprobs : List ℚ) (batch_idxs : List ℕ) : List (ℚ × ℚ × ℕ) :=
  List.zip mzs (List.zip logprobs batch_idxs)

/-- Modelled from the spec: the dense binned vector of the peaks of batch
element `b` ("peak lists binned by mass"); probabilities are the images of the
log-probabilities under the (parameter) exponential `e`. -/
def binned_spec (e : ℚ → ℚ) (mzs logprobs : List ℚ) (batch_idxs : List ℕ)
    (mz_max mz_bin_res : ℚ) (b : ℕ) : List ℚ :=
  (List.range (num_bins mz_max mz_bin_res)).map (fun k =>
    ((peaks mzs logprobs batch_idxs).map (fun p =>
      if p.2.2 = b ∧ bin_of mz_bin_res p.1 = k then e p.2.1 else 0)).sum)

/-- Dot product of two dense vectors. -/
def dot (u v : List ℚ) : ℚ := (List.zipWith (fun a b => a * b) u v).sum

/-- Number of batch elements covered by two sparse batched tensors (largest
batch index plus one). -/
def batch_size_of (true_batch_idxs pred_batch_idxs : List ℕ) : ℕ :=
  (true_batch_idxs ++ pred_batch_idxs).foldr max 0 + 1

/-- Modelled from the spec: `sparse_cosine_distance` from
`massspecgym.simulation_utils.spec_utils` (not under `src/`).  Per batch
element, bin both sparse peak lists by mass into dense vectors and return one
minus their cosine similarity; `e` and `sq` stand for the exponential and
square root, which have no computable rational counterpart and whose values
none of the claims depends on. -/
def sparse_cosine_distance (e sq : ℚ → ℚ)
    (true_mzs true_logprobs : List ℚ) (true_batch_idxs : List ℕ)
    (pred_mzs pred_logprobs : List ℚ) (pred_batch_idxs : List ℕ)
    (mz_max mz_bin_res : ℚ) : List ℚ :=
  (List.range (batch_size_of true_batch_idxs pred_batch_idxs)).map (fun b =>
    let u := binned_spec e true_mzs true_logprobs true_batch_idxs mz_max mz_bin_res b
    let v := binned_spec e pred_mzs pred_logprobs pred_batch_idxs mz_max mz_bin_res b
    1 - dot u v / (sq (dot u u) * sq (dot v v)))

/-- Hyperparameters of `SimulationMassSpecGymModel` (`self.hparams` after
`save_hyperparameters`), from `__init__` and the uses in
`src/massspecgym/models/simulation/base.py`. -/
structure Hparams where
  optimizer : String
  lr : ℚ
  weight_decay : ℚ
  lr_schedule : Bool
  lr_decay_rate : ℚ
  lr_warmup_steps : ℕ
  lr_decay_steps : ℕ
  ints_transform : String
  mz_max : ℚ
  mz_bin_res : ℚ
  train_sample_weight : Bool
  eval_sample_weight : Bool

/-- Translated from `_preproc_spec` (lines 78-89): intensities are multiplied
by 1000, passed through the configured intensity transform (`itf`, the value
of `get_ints_transform_func(hparams.ints_transform)`, whose code is not under
`src/`), L1-normalized per spectrum, and `safelog` (`slog`, also not under
`src/`) is applied; the mz values and batch indices pass through unchanged. -/
def preproc_spec (itf slog : ℚ → ℚ)
    (spec_mzs spec_ints : List ℚ) (spec_batch_idxs : List ℕ) :
    List ℚ × List ℚ × List ℕ :=
  let ints1 := spec_ints.map (fun x => x * 1000)
  let ints2 := ints1.map itf
  let ints3 := batched_l1_normalize ints2 spec_batch_idxs
  let ints4 := ints3.map slog
  (spec_mzs, ints4, spec_batch_idxs)

/-- Translated from `_setup_loss_fn` (lines 91-114): the installed `_loss_fn`
closure applies `sparse_cosine_distance` to the matched true/predicted sparse
spectra with `hparams.mz_max` and `hparams.mz_bin_res`. -/
def loss_fn (hp : Hparams) (e sq : ℚ → ℚ)
    (true_mzs true_logprobs : List ℚ) (true_batch_idxs : List ℕ)
    (pred_mzs pred_logprobs : List ℚ) (pred_batch_idxs : List ℕ) : List ℚ :=
  sparse_cosine_distance e sq true_mzs true_logprobs true_batch_idxs
    pred_mzs pred_logprobs pred_batch_idxs hp.mz_max hp.mz_bin_res

/-- Translated from `get_cos_sim_fn` (lines 116-150): the returned
`_cos_sim_fn` closure.  With `untransform` set, both log-probability vectors
are exponentiated, un-transformed (`iuf`, the value of
`get_ints_untransform_func`, not under `src/`), L1-renormalized and re-logged;
then the result is one minus the sparse cosine distance of the matched
inputs (the Python call passes every argument by keyword). -/
def cos_sim_fn (hp : Hparams) (e sq slog : ℚ → ℚ)
    (iuf : List ℚ → List ℕ → List ℚ) (untransform : Bool)
    (pred_mzs pred_logprobs : List ℚ) (pred_batch_idxs : List ℕ)
    (true_mzs true_logprobs : List ℚ) (true_batch_idxs : List ℕ) : List ℚ :=
  let true_logprobs := if untransform then
      (batched_l1_normalize (iuf (true_logprobs.map e) true_batch_idxs)
        true_batch_idxs).map slog
    else true_logprobs
  let pred_logprobs := if untransform then
      (batched_l1_normalize (iuf (pred_logprobs.map e) pred_batch_idxs)
        pred_batch_idxs).map slog
    else pred_logprobs
  (sparse_cosine_distance e sq true_mzs true_logprobs true_batch_idxs
    pred_mzs pred_logprobs pred_batch_idxs hp.mz_max hp.mz_bin_res).map
    (fun d => 1 - d)

/-- The fields of the `batch` dict that `step` reads. -/
structure Batch where
  spec_mzs : List ℚ
  spec_ints : List ℚ
  spec_batch_idxs : List ℕ
  weight : List ℚ

/-- The fields of the dict returned by `self.model.forward` that `step`
reads. -/
structure ModelOut where
  pred_mzs : List ℚ
  pred_logprobs : List ℚ
  pred_batch_idxs : List ℕ

/-- The dict returned by `step` (line 215-222). -/
structure StepOut where
  loss : ℚ
  pred_mzs : List ℚ
  pred_logprobs : List ℚ
  pred_batch_idxs : List ℕ
  true_mzs : List ℚ
  true_logprobs : List ℚ
  true_batch_idxs : List ℕ

/-- Translated from `SimulationMassSpecGymModel.step` (lines 177-224):
preprocess the true spectrum, run the model forward, compute the per-sample
cosine-distance loss, reduce it with the train reduce function when
`metric_pref` is `"train_"` and the eval reduce function otherwise, and return
the dict with the mean loss and the spectra.  The reduce functions are those
installed by `_setup_metric_fns` (lines 165-171):
`get_batch_metric_reduce_fn` at `hparams.train_sample_weight` and
`hparams.eval_sample_weight` respectively.  (The logging side effect on line
205 is not part of the returned value.) -/
def step (hp : Hparams) (e sq itf slog : ℚ → ℚ)
    (forward : Batch → ModelOut) (batch : Batch) (metric_pref : String) :
    StepOut :=
  let t := preproc_spec itf slog batch.spec_mzs batch.spec_ints batch.spec_batch_idxs
  let true_mzs := t.1
  let true_logprobs := t.2.1
  let true_batch_idxs := t.2.2
  let out_d := forward batch
  let loss := loss_fn hp e sq true_mzs true_logprobs true_batch_idxs
    out_d.pred_mzs out_d.pred_logprobs out_d.pred_batch_idxs
  let reduce_fn := if metric_pref = "train_" then
      batch_metric_reduce hp.train_sample_weight
    else
      batch_metric_reduce hp.eval_sample_weight
  let mean_loss := (reduce_fn loss batch.weight).1
  { loss := mean_loss,
    pred_mzs := out_d.pred_mzs,
    pred_logprobs := out_d.pred_logprobs,
    pred_batch_idxs := out_d.pred_batch_idxs,
    true_mzs := true_mzs,
    true_logprobs := true_logprobs,
    true_batch_idxs := true_batch_idxs }

/-- Concrete hyperparameters used by witnesses. -/
def hp0 : Hparams :=
  { optimizer := "adam", lr := 1/1000, weight_decay := 0, lr_schedule := false,
    lr_decay_rate := 1, lr_warmup_steps := 0, lr_decay_steps := 1,
    ints_transform := "log10", mz_max := 10, mz_bin_res := 1,
    train_sample_weight := true, eval_sample_weight := false }

/-- Concrete batch used by witnesses. -/
def batch0 : Batch :=
  { spec_mzs := [2, 5], spec_ints := [1/2, 1/2], spec_batch_idxs := [0, 0],
    weight := [1] }

/-- Concrete forward function used by witnesses. -/
def forward0 : Batch → ModelOut :=
  fun _ => { pred_mzs := [2], pred_logprobs := [0], pred_batch_idxs := [0] }

/-! ## Datasets (`src/massspecgym/datasets.py`) -/

/-- A parsed spectrum as `MassSpecDataset` sees it: a matchms object exposing
a metadata dictionary (`.get(key)` and `.metadata[key]`), embedded as an
association list; metadata values are embedded as strings. -/
structure Spectrum where
  metadata : List (String × String)

/-- The dict returned by `MassSpecDataset.__getitem__`. -/
structure Item (S M : Type) where
  spec : S
  mol : M
  precursor_mz : String
  adduct : String

/-- Translated from `MassSpecDataset.__getitem__` (lines 33-42): apply
`spec_preproc` to the i-th parsed spectrum and `mol_preproc` to its `smiles`
metadata (matchms `.get` returns `None` when absent, hence the `Option`
argument), then add the `precursor_mz` and `adduct` metadata entries
(`metadata[k]` raises `KeyError` when absent, embedded as `none`). -/
def dataset_getitem {S M : Type} (spec_preproc : Spectrum → S)
    (mol_preproc : Option String → M) (spectra : List Spectrum) (i : ℕ) :
    Option (Item S M) := do
  let s ← spectra.get? i
  let p ← s.metadata.lookup "precursor_mz"
  let a ← s.metadata.lookup "adduct"
  pure { spec := spec_preproc s,
         mol := mol_preproc (s.metadata.lookup "smiles"),
         precursor_mz := p, adduct := a }

/-- Translated from `MassSpecDataset.__len__` (lines 30-31): the length of the
list of spectra parsed from the .mgf file. -/
def dataset_len (spectra : List Spectrum) : ℕ := spectra.length

/-- Translated from `RetrievalDataset` in `src/massspecgym/datasets.py`
(lines 45-70): declared with `def`, not `class`, so it is a plain function
whose single positional parameter shadows the name `MassSpecDataset`.  Its
body executes two inner `def` statements, which create closures bound to
local names and never invoked (embedded as placeholder values), then `pass`,
and falls off the end: the call returns Python `None` and constructs no
dataset object. -/
def RetrievalDataset {α β : Type} (MassSpecDataset : α) : Option β :=
  let inner_init := fun (candidates_pth : String) => ()
  let inner_getitem := fun (i : ℕ) => ()
  none

/-- The split file as parsed by `pd.read_csv`: the column names and the rows
of cells (each row parallel to `columns`). -/
structure SplitFile where
  columns : List String
  cells : List (List String)

/-- A named column of a split file, as a list of cell values. -/
def get_column (sf : SplitFile) (name : String) : List String :=
  match sf.columns.indexOf? name with
  | some j => sf.cells.map (fun row => row.getD j "")
  | none => []

/-- Translated from `MassSpecDataModule.prepare_data` (lines 97-105): raise
`ValueError` when the set of column names differs from exactly
`{"id", "fold"}`, then set the index to `id` and keep the `fold` column, and
raise `ValueError` when the set of its values differs from exactly
`{"train", "val", "test"}`; otherwise the split (id column and fold column)
is kept. -/
def prepare_data (sf : SplitFile) : Except String (List String × List String) :=
  if sf.columns.toFinset ≠ ({"id", "fold"} : Finset String) then
    Except.error "Split file must contain \"id\" and \"fold\" columns."
  else if (get_column sf "fold").toFinset
      ≠ ({"train", "val", "test"} : Finset String) then
    Except.error
      "\"Folds\" column must contain only and all of \"train\", \"val\", and \"test\" values."
  else
    Except.ok (get_column sf "id", get_column sf "fold")

/-- Translated from `MassSpecDataModule.setup` (line 108): the mask
`[self.split[i] for i in self.dataset.spectra_idx]`; the pandas Series
`split` is embedded as a partial map from ids to fold names (`none` when the
id is absent, where Python would raise `KeyError`). -/
def split_mask (split : ℤ → Option String) (spectra_idx : List ℤ) :
    List (Option String) :=
  spectra_idx.map split

/-- Translated from `MassSpecDataModule.setup` (lines 109-111):
`np.where(split_mask == fold)[0]`, the increasing list of positions of the
mask holding the given fold name; these positions are the indices of the
`Subset` built for that fold. -/
def fold_indices (mask : List (Option String)) (fold : String) : List ℕ :=
  (List.range mask.length).filter (fun i => mask.get? i = some (some fold))

/-! ## Epoch-end metric logging -/

/-- Python substring containment (the `in` operator on strings), on the
underlying character lists. -/
def str_contains (sub s : String) : Bool := decide (sub.data <:+: s.data)

/-- Translated from `on_train_epoch_end` / `on_validation_epoch_end`
(lines 286-310), which differ only in the substring: take the sub-dict of
`metric_d` whose keys contain `sub`; for each of its entries log
`sum(stack(v[0])) / sum(stack(v[1]))` under its key and delete the key from
`metric_d`.  The dict is embedded as an association list in insertion order;
`del` is `eraseP` on the key.  An entry value is the pair of the accumulated
per-batch lists `(v[0], v[1])`; nothing under `src/` populates `metric_d`,
and the spec describes `v[0]` as the accumulated weighted score totals and
`v[1]` as the accumulated weight totals (the second and third components of
`get_batch_metric_reduce_fn`'s result), stacked and summed here.  Returns the
list of logged (key, value) pairs and the remaining dict. -/
def epoch_end_log (sub : String)
    (metric_d : List (String × (List ℚ × List ℚ))) :
    List (String × ℚ) × List (String × (List ℚ × List ℚ)) :=
  let metrics := metric_d.filter (fun kv => str_contains sub kv.1)
  let logs := metrics.map (fun kv => (kv.1, kv.2.1.sum / kv.2.2.sum))
  let d := metrics.foldl
    (fun acc kv => acc.eraseP (fun kv2 => kv2.1 == kv.1)) metric_d
  (logs, d)

/-- Translated from `on_train_epoch_end` (lines 286-297). -/
def on_train_epoch_end (metric_d : List (String × (List ℚ × List ℚ))) :
    List (String × ℚ) × List (String × (List ℚ × List ℚ)) :=
  epoch_end_log "train_" metric_d

/-- Translated from `on_validation_epoch_end` (lines 299-310). -/
def on_validation_epoch_end (metric_d : List (String × (List ℚ × List ℚ))) :
    List (String × ℚ) × List (String × (List ℚ × List ℚ)) :=
  epoch_end_log "val_" metric_d

/-! ## Optimizer configuration -/

/-- The torch optimizer class selected by `configure_optimizers`. -/
inductive OptimizerCls
  | adam
  | adamw
  | sgd
deriving DecidableEq

/-- A constructed torch optimizer: its class and the keyword arguments
(`lr`, `weight_decay`) it is built with over the model parameters. -/
structure Optimizer where
  cls : OptimizerCls
  lr : ℚ
  weight_decay : ℚ
deriving DecidableEq

/-- The `lr_scheduler` entry built on lines 59-69: a scheduler from
`build_lr_scheduler` (not under `src/`; represented by its arguments) with
`frequency` 1 and `interval` "step". -/
structure LRSchedulerEntry where
  decay_rate : ℚ
  warmup_steps : ℕ
  decay_steps : ℕ
  frequency : ℕ
  interval : String
deriving DecidableEq

/-- The dict returned by `configure_optimizers`: the `optimizer` entry and
the optional `lr_scheduler` entry. -/
structure OptimizersResult where
  optimizer : Optimizer
  lr_scheduler : Option LRSchedulerEntry
deriving DecidableEq

/-- A Python exception as raised by `configure_optimizers`. -/
inductive PyError
  | attributeError (obj attr : String)
  | valueError (msg : String)
deriving DecidableEq

/-- The instance attributes a `SimulationMassSpecGymModel` object carries
when `configure_optimizers` runs: those assigned in
`SimulationMassSpecGymModel.__init__` and the `_setup_*` methods it calls
(`_setup_model` is abstract; concrete subclasses assign `self.model`, which
`forward` reads), plus `hparams` exposed by `save_hyperparameters`.  No
attribute named `optimizer` is ever assigned. -/
def instance_attributes : List String :=
  ["hparams", "model", "metric_d", "loss_fn", "ints_transform_func",
   "ints_untransform_func", "ints_normalize_func", "train_reduce_fn",
   "eval_reduce_fn", "cos_sim_fn", "cos_sim_obj_fn"]

/-- Python attribute lookup `self.<attr>` on the model object:
`AttributeError` when the attribute is absent (torch `nn.Module.__getattr__`;
`pytorch_lightning.LightningModule` defines no `optimizer` attribute
either). -/
def getattr_self (attr : String) : Except PyError Unit :=
  if attr ∈ instance_attributes then Except.ok ()
  else Except.error (PyError.attributeError "SimulationMassSpecGymModel" attr)

/-- The `ret` dict built on lines 50-69 of `configure_optimizers` for the
selected optimizer class: the optimizer over the model parameters with
`hparams.lr` and `hparams.weight_decay`, plus the `lr_scheduler` entry
(scheduler, `frequency` 1, `interval` "step") exactly when
`hparams.lr_schedule`. -/
def build_optimizers_ret (hp : Hparams) (cls : OptimizerCls) : OptimizersResult :=
  { optimizer := { cls := cls, lr := hp.lr, weight_decay := hp.weight_decay },
    lr_scheduler :=
      if hp.lr_schedule then
        some { decay_rate := hp.lr_decay_rate,
               warmup_steps := hp.lr_warmup_steps,
               decay_steps := hp.lr_decay_steps,
               frequency := 1, interval := "step" }
      else none }

/-- Translated from `SimulationMassSpecGymModel.configure_optimizers`
(lines 40-70): select the optimizer class by `hparams.optimizer` and return
the built `ret` dict; on an unknown name, the statement
`raise ValueError(f"Unknown optimizer {self.optimizer}")` first evaluates its
f-string, which reads the absent attribute `self.optimizer` (not
`self.hparams.optimizer`), so that read's exception propagates before the
`ValueError` is constructed. -/
def configure_optimizers (hp : Hparams) : Except PyError OptimizersResult :=
  if hp.optimizer = "adam" then
    Except.ok (build_optimizers_ret hp OptimizerCls.adam)
  else if hp.optimizer = "adamw" then
    Except.ok (build_optimizers_ret hp OptimizerCls.adamw)
  else if hp.optimizer = "sgd" then
    Except.ok (build_optimizers_ret hp OptimizerCls.sgd)
  else
    match getattr_self "optimizer" with
    | Except.error e => Except.error e
    | Except.ok _ => Except.error (PyError.valueError "Unknown optimizer")

/-- Concrete hyperparameters with an unknown optimizer name, used by the C9
witness. -/
def hp_bad : Hparams :=
  { hp0 with optimizer := "rmsprop" }

/-- Concrete metric dictionary used by the C5 witness. -/
def metric_d0 : List (String × (List ℚ × List ℚ)) :=
  [("train_loss", ([1, 2], [1, 1])),
   ("val_loss", ([4], [2])),
   ("other", ([5], [5]))]

/-! ## Theorems -/

theorem zipWith_mul_ones_sum (s : List ℚ) (w : List ℚ) (h : s.length = w.length) :
    (List.zipWith (fun a b => a * b) s (w.map (fun _ => (1 : ℚ)))).sum = s.sum := by
  induction s generalizing w with
  | nil => simp
  | cons a s ih =>
    cases w with
    | nil => simp at h
    | cons b w =>
      simp only [List.map_cons, List.zipWith_cons_cons, List.sum_cons, mul_one]
      rw [ih w (by simpa using h)]

theorem sum_map_ones (w : List ℚ) :
    (w.map (fun _ => (1 : ℚ))).sum = (w.length : ℚ) := by
  induction w with
  | nil => simp
  | cons b w ih => simp [ih]; ring

/-- C1: with `sample_weight = true` the reduce function returns the triple
(weighted mean, weighted score total, weight total) computed from the given
weights; with `sample_weight = false` the weights are replaced by ones, so the
first component is the unweighted arithmetic mean of the scores and the third
component is the number of scores. -/
theorem claim_C1 (scores weights : List ℚ) (h : scores.length = weights.length) :
    batch_metric_reduce true scores weights =
      ((List.zipWith (fun s w => s * w) scores weights).sum / weights.sum,
       (List.zipWith (fun s w => s * w) scores weights).sum,
       weights.sum) ∧
    (batch_metric_reduce false scores weights).1
      = scores.sum / (scores.length : ℚ) ∧
    (batch_metric_reduce false scores weights).2.2 = (scores.length : ℚ) := by
  refine ⟨rfl, ?_, ?_⟩
  · show (List.zipWith (fun s w => s * w) scores (weights.map fun _ => (1:ℚ))).sum
        / (weights.map fun _ => (1:ℚ)).sum = scores.sum / (scores.length : ℚ)
    rw [zipWith_mul_ones_sum scores weights h, sum_map_ones, h]
  · show (weights.map fun _ => (1:ℚ)).sum = (scores.length : ℚ)
    rw [sum_map_ones, h]

/-- Witness for C1 at concrete input: scores `[2, 4]`, weights `[1, 3]`. -/
theorem claim_C1_witness :
    ([(2 : ℚ), 4].length = [(1 : ℚ), 3].length) ∧
    (batch_metric_reduce true [(2 : ℚ), 4] [(1 : ℚ), 3] = (7/2, 14, 4) ∧
     (batch_metric_reduce false [(2 : ℚ), 4] [(1 : ℚ), 3]).1 = 3 ∧
     (batch_metric_reduce false [(2 : ℚ), 4] [(1 : ℚ), 3]).2.2 = 2) := by
  constructor
  · rfl
  · have h := claim_C1 [(2 : ℚ), 4] [(1 : ℚ), 3] rfl
    refine ⟨?_, ?_, ?_⟩
    · rw [h.1]; norm_num
    · rw [h.2.1]; norm_num
    · rw [h.2.2]; norm_num

/-- C2: the per-sample loss of `step` is the sparse cosine distance (binned
with `hparams.mz_max` and `hparams.mz_bin_res`) between the model's predicted
spectrum and the true spectrum after preprocessing (intensities times 1000,
intensity transform, per-spectrum L1 normalization, safelog), and the `loss`
entry of the returned dict is the first component of the batch reduction of
these distances against the batch weights, under the train reduce function
exactly when `metric_pref = "train_"` and the eval reduce function
otherwise. -/
theorem claim_C2 (hp : Hparams) (e sq itf slog : ℚ → ℚ)
    (forward : Batch → ModelOut) (batch : Batch) (metric_pref : String) :
    (metric_pref = "train_" →
      (step hp e sq itf slog forward batch metric_pref).loss =
        (batch_metric_reduce hp.train_sample_weight
          (sparse_cosine_distance e sq
            batch.spec_mzs
            ((batched_l1_normalize
                ((batch.spec_ints.map (fun x => x * 1000)).map itf)
                batch.spec_batch_idxs).map slog)
            batch.spec_batch_idxs
            (forward batch).pred_mzs (forward batch).pred_logprobs
            (forward batch).pred_batch_idxs
            hp.mz_max hp.mz_bin_res)
          batch.weight).1) ∧
    (metric_pref ≠ "train_" →
      (step hp e sq itf slog forward batch metric_pref).loss =
        (batch_metric_reduce hp.eval_sample_weight
          (sparse_cosine_distance e sq
            batch.spec_mzs
            ((batched_l1_normalize
                ((batch.spec_ints.map (fun x => x * 1000)).map itf)
                batch.spec_batch_idxs).map slog)
            batch.spec_batch_idxs
            (forward batch).pred_mzs (forward batch).pred_logprobs
            (forward batch).pred_batch_idxs
            hp.mz_max hp.mz_bin_res)
          batch.weight).1) := by
  constructor
  · intro h
    simp [step, preproc_spec, loss_fn, h]
  · intro h
    simp [step, preproc_spec, loss_fn, h]

/-- Witness for C2 at concrete input: both branches, at `metric_pref` equal to
`"train_"` and `"val_"`. -/
theorem claim_C2_witness :
    ("train_" = "train_" ∧
      (step hp0 id id id id forward0 batch0 "train_").loss =
        (batch_metric_reduce hp0.train_sample_weight
          (sparse_cosine_distance id id
            batch0.spec_mzs
            ((batched_l1_normalize
                ((batch0.spec_ints.map (fun x => x * 1000)).map id)
                batch0.spec_batch_idxs).map id)
            batch0.spec_batch_idxs
            (forward0 batch0).pred_mzs (forward0 batch0).pred_logprobs
            (forward0 batch0).pred_batch_idxs
            hp0.mz_max hp0.mz_bin_res)
          batch0.weight).1) ∧
    (("val_" : String) ≠ "train_" ∧
      (step hp0 id id id id forward0 batch0 "val_").loss =
        (batch_metric_reduce hp0.eval_sample_weight
          (sparse_cosine_distance id id
            batch0.spec_mzs
            ((batched_l1_normalize
                ((batch0.spec_ints.map (fun x => x * 1000)).map id)
                batch0.spec_batch_idxs).map id)
            batch0.spec_batch_idxs
            (forward0 batch0).pred_mzs (forward0 batch0).pred_logprobs
            (forward0 batch0).pred_batch_idxs
            hp0.mz_max hp0.mz_bin_res)
          batch0.weight).1) :=
  ⟨⟨rfl, (claim_C2 hp0 id id id id forward0 batch0 "train_").1 rfl⟩,
   ⟨by decide, (claim_C2 hp0 id id id id forward0 batch0 "val_").2 (by decide)⟩⟩

theorem map_one_sub_add (l : List ℚ) :
    List.zipWith (fun c d => c + d) (l.map (fun d => 1 - d)) l
      = List.replicate l.length 1 := by
  induction l with
  | nil => rfl
  | cons a l ih =>
    simp only [List.map_cons, List.zipWith_cons_cons, List.length_cons,
      List.replicate_succ, ih]
    congr 1
    ring

/-- C3: the cosine-similarity function returned by
`get_cos_sim_fn(untransform=False)` is pointwise one minus the cosine-distance
loss function installed by `_setup_loss_fn` on the same matched inputs, so the
two always sum to exactly 1 on every batch element. -/
theorem claim_C3 (hp : Hparams) (e sq slog : ℚ → ℚ)
    (iuf : List ℚ → List ℕ → List ℚ)
    (pred_mzs pred_logprobs : List ℚ) (pred_batch_idxs : List ℕ)
    (true_mzs true_logprobs : List ℚ) (true_batch_idxs : List ℕ) :
    cos_sim_fn hp e sq slog iuf false pred_mzs pred_logprobs pred_batch_idxs
        true_mzs true_logprobs true_batch_idxs
      = (loss_fn hp e sq true_mzs true_logprobs true_batch_idxs
          pred_mzs pred_logprobs pred_batch_idxs).map (fun d => 1 - d) ∧
    List.zipWith (fun c d => c + d)
      (cos_sim_fn hp e sq slog iuf false pred_mzs pred_logprobs pred_batch_idxs
        true_mzs true_logprobs true_batch_idxs)
      (loss_fn hp e sq true_mzs true_logprobs true_batch_idxs
        pred_mzs pred_logprobs pred_batch_idxs)
      = List.replicate
          (loss_fn hp e sq true_mzs true_logprobs true_batch_idxs
            pred_mzs pred_logprobs pred_batch_idxs).length 1 := by
  constructor
  · rfl
  · exact map_one_sub_add _

/-- C7: for every index below the dataset length, `__getitem__` returns the
dict pairing the preprocessed spectrum with the preprocessed molecule, plus
the spectrum's `precursor_mz` and `adduct` metadata values; and `__len__`
returns the number of parsed spectra. -/
theorem claim_C7 {S M : Type} (spec_preproc : Spectrum → S)
    (mol_preproc : Option String → M) (spectra : List Spectrum) (i : ℕ)
    (hi : i < spectra.length) (p a : String)
    (hp : (spectra[i]).metadata.lookup "precursor_mz" = some p)
    (ha : (spectra[i]).metadata.lookup "adduct" = some a) :
    dataset_getitem spec_preproc mol_preproc spectra i =
      some { spec := spec_preproc (spectra[i]),
             mol := mol_preproc ((spectra[i]).metadata.lookup "smiles"),
             precursor_mz := p, adduct := a } ∧
    dataset_len spectra = spectra.length := by
  constructor
  · unfold dataset_getitem
    rw [List.get?_eq_getElem?, List.getElem?_eq_getElem hi]
    simp [hp, ha]
  · rfl

/-- Witness for C7 at a concrete one-spectrum dataset. -/
theorem claim_C7_witness :
    (0 < ([⟨[("precursor_mz", "100.5"), ("adduct", "M+H"), ("smiles", "CO")]⟩] :
        List Spectrum).length) ∧
    dataset_getitem (fun s => s.metadata.length) (fun o => o.isSome)
        [⟨[("precursor_mz", "100.5"), ("adduct", "M+H"), ("smiles", "CO")]⟩] 0 =
      some { spec := 3, mol := true, precursor_mz := "100.5", adduct := "M+H" } := by
  refine ⟨by decide, ?_⟩
  have h := claim_C7 (fun s => s.metadata.length) (fun o => o.isSome)
    [⟨[("precursor_mz", "100.5"), ("adduct", "M+H"), ("smiles", "CO")]⟩] 0
    (by decide) "100.5" "M+H" (by decide) (by decide)
  exact h.1

/-- C8: `RetrievalDataset` is a `def`, not a `class`: it is a plain function
of one positional argument, and every call returns `None` and constructs no
dataset object. -/
theorem claim_C8 (α β : Type) (x : α) : @RetrievalDataset α β x = none := rfl

/-- C10: `prepare_data` raises `ValueError` if and only if the split file's
column set differs from exactly `{"id", "fold"}` or the set of fold values
differs from exactly `{"train", "val", "test"}`; in particular a file whose
fold values are the strict subset `{"train", "val"}` is rejected. -/
theorem claim_C10 (sf : SplitFile) :
    ((∃ msg, prepare_data sf = Except.error msg) ↔
      (sf.columns.toFinset ≠ ({"id", "fold"} : Finset String) ∨
       (get_column sf "fold").toFinset
         ≠ ({"train", "val", "test"} : Finset String))) ∧
    (∃ msg,
      prepare_data
        { columns := ["id", "fold"], cells := [["1", "train"], ["2", "val"]] }
        = Except.error msg) := by
  constructor
  · unfold prepare_data
    by_cases h1 : sf.columns.toFinset = ({"id", "fold"} : Finset String)
    · by_cases h2 : (get_column sf "fold").toFinset
          = ({"train", "val", "test"} : Finset String)
      · simp [h1, h2]
      · simp [h1, h2]
    · simp [h1]
  · exact ⟨_, rfl⟩

theorem mem_fold_indices (split : ℤ → Option String) (idxs : List ℤ)
    (f : String) (i : ℕ) (hi : i < idxs.length) :
    i ∈ fold_indices (split_mask split idxs) f ↔
      split (idxs.get ⟨i, hi⟩) = some f := by
  unfold fold_indices split_mask
  rw [List.mem_filter]
  simp only [List.mem_range, List.length_map, decide_eq_true_eq]
  rw [List.get?_eq_getElem?, List.getElem?_map, List.getElem?_eq_getElem hi]
  simp only [Option.map_some']
  constructor
  · intro h
    exact Option.some_inj.1 h.2
  · intro h
    exact ⟨hi, Option.some_inj.2 h⟩

/-- C4: when every id of `spectra_idx` is assigned a fold by the (validated)
split, the train/val/test index lists built by `setup` partition the dataset
indices: each position belongs to exactly one of the three, namely the one
named by the fold the split assigns to its spectrum's id, and each list is
strictly increasing. -/
theorem claim_C4 (split : ℤ → Option String) (idxs : List ℤ)
    (hall : ∀ id ∈ idxs, ∃ f, split id = some f ∧
      (f = "train" ∨ f = "val" ∨ f = "test")) :
    (∀ (i : ℕ) (hi : i < idxs.length),
      (split (idxs.get ⟨i, hi⟩) = some "train" ∧
        i ∈ fold_indices (split_mask split idxs) "train" ∧
        i ∉ fold_indices (split_mask split idxs) "val" ∧
        i ∉ fold_indices (split_mask split idxs) "test") ∨
      (split (idxs.get ⟨i, hi⟩) = some "val" ∧
        i ∉ fold_indices (split_mask split idxs) "train" ∧
        i ∈ fold_indices (split_mask split idxs) "val" ∧
        i ∉ fold_indices (split_mask split idxs) "test") ∨
      (split (idxs.get ⟨i, hi⟩) = some "test" ∧
        i ∉ fold_indices (split_mask split idxs) "train" ∧
        i ∉ fold_indices (split_mask split idxs) "val" ∧
        i ∈ fold_indices (split_mask split idxs) "test")) ∧
    List.Pairwise (· < ·) (fold_indices (split_mask split idxs) "train") ∧
    List.Pairwise (· < ·) (fold_indices (split_mask split idxs) "val") ∧
    List.Pairwise (· < ·) (fold_indices (split_mask split idxs) "test") := by
  refine ⟨?_, ?_, ?_, ?_⟩
  · intro i hi
    obtain ⟨f, hf, hcase⟩ := hall (idxs.get ⟨i, hi⟩) (idxs.get_mem _ _)
    rcases hcase with h | h | h
    · left
      subst h
      refine ⟨hf, (mem_fold_indices split idxs _ i hi).2 hf, ?_, ?_⟩
      · intro hmem
        have := (mem_fold_indices split idxs _ i hi).1 hmem
        rw [hf] at this
        simp at this
      · intro hmem
        have := (mem_fold_indices split idxs _ i hi).1 hmem
        rw [hf] at this
        simp at this
    · right; left
      subst h
      refine ⟨hf, ?_, (mem_fold_indices split idxs _ i hi).2 hf, ?_⟩
      · intro hmem
        have := (mem_fold_indices split idxs _ i hi).1 hmem
        rw [hf] at this
        simp at this
      · intro hmem
        have := (mem_fold_indices split idxs _ i hi).1 hmem
        rw [hf] at this
        simp at this
    · right; right
      subst h
      refine ⟨hf, ?_, ?_, (mem_fold_indices split idxs _ i hi).2 hf⟩
      · intro hmem
        have := (mem_fold_indices split idxs _ i hi).1 hmem
        rw [hf] at this
        simp at this
      · intro hmem
        have := (mem_fold_indices split idxs _ i hi).1 hmem
        rw [hf] at this
        simp at this
  · exact List.Pairwise.sublist (List.filter_sublist _) (List.pairwise_lt_range _)
  · exact List.Pairwise.sublist (List.filter_sublist _) (List.pairwise_lt_range _)
  · exact List.Pairwise.sublist (List.filter_sublist _) (List.pairwise_lt_range _)

/-- Witness for C4 at a concrete two-spectrum dataset with split
`{7 ↦ train, 8 ↦ test}`. -/
theorem claim_C4_witness :
    (∀ id ∈ ([7, 8] : List ℤ),
      ∃ f, (fun j => if j = (7 : ℤ) then some "train"
              else if j = 8 then some "test" else none) id = some f ∧
        (f = "train" ∨ f = "val" ∨ f = "test")) ∧
    (0 ∈ fold_indices (split_mask
      (fun j => if j = (7 : ℤ) then some "train"
        else if j = 8 then some "test" else none) [7, 8]) "train" ∧
     0 ∉ fold_indices (split_mask
      (fun j => if j = (7 : ℤ) then some "train"
        else if j = 8 then some "test" else none) [7, 8]) "val" ∧
     0 ∉ fold_indices (split_mask
      (fun j => if j = (7 : ℤ) then some "train"
        else if j = 8 then some "test" else none) [7, 8]) "test") ∧
    List.Pairwise (· < ·) (fold_indices (split_mask
      (fun j => if j = (7 : ℤ) then some "train"
        else if j = 8 then some "test" else none) [7, 8]) "train") := by
  have hall : ∀ id ∈ ([7, 8] : List ℤ),
      ∃ f, (fun j => if j = (7 : ℤ) then some "train"
              else if j = 8 then some "test" else none) id = some f ∧
        (f = "train" ∨ f = "val" ∨ f = "test") := by
    intro id hid
    rcases List.mem_pair.1 hid with h | h
    · exact ⟨"train", by simp [h], Or.inl rfl⟩
    · exact ⟨"test", by simp [h], Or.inr (Or.inr rfl)⟩
  have h := claim_C4
    (fun j => if j = (7 : ℤ) then some "train"
      else if j = 8 then some "test" else none) [7, 8] hall
  refine ⟨hall, ?_, h.2.1⟩
  rcases h.1 0 (by decide) with ⟨_, h1, h2, h3⟩ | ⟨hbad, _⟩ | ⟨hbad, _⟩
  · exact ⟨h1, h2, h3⟩
  · simp at hbad
  · simp at hbad

theorem eraseP_eq_filter_of_nodup {β : Type} (d : List (String × β)) (k : String)
    (h : (d.map Prod.fst).Nodup) :
    d.eraseP (fun kv => kv.1 == k) = d.filter (fun kv => !(kv.1 == k)) := by
  induction d with
  | nil => rfl
  | cons kv tl ih =>
    rw [List.map_cons, List.nodup_cons] at h
    by_cases hk : kv.1 = k
    · rw [List.eraseP_cons_of_pos (by simpa using hk),
        List.filter_cons_of_neg (by simpa using hk)]
      symm
      rw [List.filter_eq_self]
      intro kv2 h2
      have hmem : kv2.1 ∈ tl.map Prod.fst := List.mem_map_of_mem Prod.fst h2
      have hne : kv2.1 ≠ k := by
        intro he
        rw [he, ← hk] at hmem
        exact h.1 hmem
      simpa using hne
    · rw [List.eraseP_cons_of_neg (by simpa using hk),
        List.filter_cons_of_pos (by simpa using hk), ih h.2]

theorem foldl_eraseP_eq_filter {β : Type} (ms : List (String × β))
    (d : List (String × β)) (h : (d.map Prod.fst).Nodup) :
    ms.foldl (fun acc kv => acc.eraseP (fun kv2 => kv2.1 == kv.1)) d
      = d.filter (fun kv2 => !(decide (kv2.1 ∈ ms.map Prod.fst))) := by
  induction ms generalizing d with
  | nil => simp
  | cons kv ms ih =>
    rw [List.foldl_cons, eraseP_eq_filter_of_nodup d kv.1 h]
    have hsub : ((d.filter (fun kv2 => !(kv2.1 == kv.1))).map Prod.fst).Nodup :=
      List.Nodup.sublist (List.Sublist.map Prod.fst (List.filter_sublist d)) h
    rw [ih _ hsub, List.filter_filter]
    congr 1
    funext kv2
    by_cases h1 : kv2.1 = kv.1
    · simp [h1]
    · by_cases h2 : kv2.1 ∈ ms.map Prod.fst
      · simp [h1, h2]
      · simp [h1, h2]

theorem epoch_end_log_spec (sub : String)
    (d : List (String × (List ℚ × List ℚ)))
    (hnodup : (d.map Prod.fst).Nodup) :
    (∀ k v, (k, v) ∈ d →
      (str_contains sub k = true →
        (k, v.1.sum / v.2.sum) ∈ (epoch_end_log sub d).1 ∧
        ∀ w, (k, w) ∉ (epoch_end_log sub d).2) ∧
      (str_contains sub k = false →
        (k, v) ∈ (epoch_end_log sub d).2 ∧
        ∀ q, (k, q) ∉ (epoch_end_log sub d).1)) ∧
    (∀ k q, (k, q) ∈ (epoch_end_log sub d).1 →
      ∃ v, (k, v) ∈ d ∧ str_contains sub k = true ∧ q = v.1.sum / v.2.sum) ∧
    (∀ k v, (k, v) ∈ (epoch_end_log sub d).2 →
      (k, v) ∈ d ∧ str_contains sub k = false) := by
  have hlogs : (epoch_end_log sub d).1
      = (d.filter (fun kv => str_contains sub kv.1)).map
          (fun kv => (kv.1, kv.2.1.sum / kv.2.2.sum)) := rfl
  have hrest : (epoch_end_log sub d).2
      = d.filter (fun kv2 =>
          !(decide (kv2.1
            ∈ (d.filter (fun kv => str_contains sub kv.1)).map Prod.fst))) :=
    foldl_eraseP_eq_filter _ d hnodup
  have key_mem : ∀ k : String,
      k ∈ (d.filter (fun kv => str_contains sub kv.1)).map Prod.fst →
      str_contains sub k = true := by
    intro k hk
    obtain ⟨kv, hkv, hfst⟩ := List.mem_map.1 hk
    have := (List.mem_filter.1 hkv).2
    rwa [hfst] at this
  refine ⟨?_, ?_, ?_⟩
  · intro k v hmem
    constructor
    · intro hsub
      have hms : (k, v) ∈ d.filter (fun kv => str_contains sub kv.1) :=
        List.mem_filter.2 ⟨hmem, hsub⟩
      constructor
      · rw [hlogs]
        exact List.mem_map.2 ⟨(k, v), hms, rfl⟩
      · intro w hw
        rw [hrest] at hw
        have hb := (List.mem_filter.1 hw).2
        simp only [Bool.not_eq_true', decide_eq_false_iff_not] at hb
        exact hb (List.mem_map_of_mem Prod.fst hms)
    · intro hsub
      have hnk : k ∉ (d.filter (fun kv => str_contains sub kv.1)).map Prod.fst := by
        intro hk
        rw [key_mem k hk] at hsub
        cases hsub
      constructor
      · rw [hrest]
        refine List.mem_filter.2 ⟨hmem, ?_⟩
        simp only [Bool.not_eq_true', decide_eq_false_iff_not]
        exact hnk
      · intro q hq
        rw [hlogs] at hq
        obtain ⟨kv, hkv, heq⟩ := List.mem_map.1 hq
        have hfst : kv.1 = k := congrArg Prod.fst heq
        exact hnk (hfst ▸ List.mem_map_of_mem Prod.fst hkv)
  · intro k q hq
    rw [hlogs] at hq
    obtain ⟨kv, hkv, heq⟩ := List.mem_map.1 hq
    obtain ⟨hd, hsub⟩ := List.mem_filter.1 hkv
    have hfst : kv.1 = k := congrArg Prod.fst heq
    have hsnd : kv.2.1.sum / kv.2.2.sum = q := congrArg Prod.snd heq
    refine ⟨kv.2, ?_, ?_, ?_⟩
    · rw [← hfst]
      exact hd
    · rw [← hfst]
      exact hsub
    · rw [← hsnd]
  · intro k v hv
    rw [hrest] at hv
    obtain ⟨hd, hb⟩ := List.mem_filter.1 hv
    simp only [Bool.not_eq_true', decide_eq_false_iff_not] at hb
    refine ⟨hd, ?_⟩
    by_contra hcon
    rw [Bool.not_eq_false] at hcon
    exact hb (List.mem_map_of_mem Prod.fst
      (List.mem_filter.2 ⟨hd, hcon⟩))

/-- C5: after `on_train_epoch_end` (resp. `on_validation_epoch_end`), every
entry of `metric_d` whose key contains `"train_"` (resp. `"val_"`) has been
logged under its key with value the sum of its accumulated weighted score
totals divided by the sum of its accumulated weight totals, and exactly those
entries have been deleted, while every entry whose key lacks the substring is
unchanged (still present, and not logged). -/
theorem claim_C5 (d : List (String × (List ℚ × List ℚ)))
    (hnodup : (d.map Prod.fst).Nodup) :
    ((∀ k v, (k, v) ∈ d →
      (str_contains "train_" k = true →
        (k, v.1.sum / v.2.sum) ∈ (on_train_epoch_end d).1 ∧
        ∀ w, (k, w) ∉ (on_train_epoch_end d).2) ∧
      (str_contains "train_" k = false →
        (k, v) ∈ (on_train_epoch_end d).2 ∧
        ∀ q, (k, q) ∉ (on_train_epoch_end d).1)) ∧
    (∀ k q, (k, q) ∈ (on_train_epoch_end d).1 →
      ∃ v, (k, v) ∈ d ∧ str_contains "train_" k = true ∧ q = v.1.sum / v.2.sum) ∧
    (∀ k v, (k, v) ∈ (on_train_epoch_end d).2 →
      (k, v) ∈ d ∧ str_contains "train_" k = false)) ∧
    ((∀ k v, (k, v) ∈ d →
      (str_contains "val_" k = true →
        (k, v.1.sum / v.2.sum) ∈ (on_validation_epoch_end d).1 ∧
        ∀ w, (k, w) ∉ (on_validation_epoch_end d).2) ∧
      (str_contains "val_" k = false →
        (k, v) ∈ (on_validation_epoch_end d).2 ∧
        ∀ q, (k, q) ∉ (on_validation_epoch_end d).1)) ∧
    (∀ k q, (k, q) ∈ (on_validation_epoch_end d).1 →
      ∃ v, (k, v) ∈ d ∧ str_contains "val_" k = true ∧ q = v.1.sum / v.2.sum) ∧
    (∀ k v, (k, v) ∈ (on_validation_epoch_end d).2 →
      (k, v) ∈ d ∧ str_contains "val_" k = false)) :=
  ⟨epoch_end_log_spec "train_" d hnodup, epoch_end_log_spec "val_" d hnodup⟩

/-- Witness for C5 at the concrete metric dictionary `metric_d0`: the
train-prefixed entry is logged with value `(1+2)/(1+1)`, the val-prefixed
entry with `4/2`, and the unrelated entry survives the train epoch end. -/
theorem claim_C5_witness :
    (metric_d0.map Prod.fst).Nodup ∧
    ("train_loss", ([(1 : ℚ), 2].sum / [(1 : ℚ), 1].sum))
      ∈ (on_train_epoch_end metric_d0).1 ∧
    ("val_loss", ([(4 : ℚ)].sum / [(2 : ℚ)].sum))
      ∈ (on_validation_epoch_end metric_d0).1 ∧
    ("other", ([(5 : ℚ)], [(5 : ℚ)])) ∈ (on_train_epoch_end metric_d0).2 := by
  have h := claim_C5 metric_d0 (by decide)
  refine ⟨by decide, ?_, ?_, ?_⟩
  · exact ((h.1.1 "train_loss" ([1, 2], [1, 1]) (by decide)).1 (by decide)).1
  · exact ((h.2.1 "val_loss" ([4], [2]) (by decide)).1 (by decide)).1
  · exact ((h.1.1 "other" ([5], [5]) (by decide)).2 (by decide)).1

/-- C6: for `hparams.optimizer` equal to `"adam"`, `"adamw"` or `"sgd"`,
`configure_optimizers` returns a dict whose `optimizer` entry is respectively
an Adam, AdamW or SGD optimizer built with learning rate `hparams.lr` and
weight decay `hparams.weight_decay`, and the dict contains an `lr_scheduler`
entry if and only if `hparams.lr_schedule` is true. -/
theorem claim_C6 (hp : Hparams)
    (h : hp.optimizer = "adam" ∨ hp.optimizer = "adamw" ∨ hp.optimizer = "sgd") :
    ∃ r, configure_optimizers hp = Except.ok r ∧
      r.optimizer.lr = hp.lr ∧
      r.optimizer.weight_decay = hp.weight_decay ∧
      (hp.optimizer = "adam" → r.optimizer.cls = OptimizerCls.adam) ∧
      (hp.optimizer = "adamw" → r.optimizer.cls = OptimizerCls.adamw) ∧
      (hp.optimizer = "sgd" → r.optimizer.cls = OptimizerCls.sgd) ∧
      (r.lr_scheduler.isSome = true ↔ hp.lr_schedule = true) := by
  rcases h with h | h | h
  · refine ⟨build_optimizers_ret hp OptimizerCls.adam,
      by simp [configure_optimizers, h], rfl, rfl,
      fun _ => rfl, ?_, ?_, ?_⟩
    · intro he
      rw [h] at he
      exact absurd he (by decide)
    · intro he
      rw [h] at he
      exact absurd he (by decide)
    · cases hs : hp.lr_schedule <;> simp [build_optimizers_ret, hs]
  · refine ⟨build_optimizers_ret hp OptimizerCls.adamw,
      by simp [configure_optimizers, h], rfl, rfl, ?_,
      fun _ => rfl, ?_, ?_⟩
    · intro he
      rw [h] at he
      exact absurd he (by decide)
    · intro he
      rw [h] at he
      exact absurd he (by decide)
    · cases hs : hp.lr_schedule <;> simp [build_optimizers_ret, hs]
  · refine ⟨build_optimizers_ret hp OptimizerCls.sgd,
      by simp [configure_optimizers, h], rfl, rfl, ?_, ?_,
      fun _ => rfl, ?_⟩
    · intro he
      rw [h] at he
      exact absurd he (by decide)
    · intro he
      rw [h] at he
      exact absurd he (by decide)
    · cases hs : hp.lr_schedule <;> simp [build_optimizers_ret, hs]

/-- Witness for C6 at the concrete hyperparameters `hp0`
(`optimizer = "adam"`). -/
theorem claim_C6_witness :
    (hp0.optimizer = "adam" ∨ hp0.optimizer = "adamw" ∨ hp0.optimizer = "sgd") ∧
    (∃ r, configure_optimizers hp0 = Except.ok r ∧
      r.optimizer.lr = hp0.lr ∧
      r.optimizer.weight_decay = hp0.weight_decay ∧
      (hp0.optimizer = "adam" → r.optimizer.cls = OptimizerCls.adam) ∧
      (hp0.optimizer = "adamw" → r.optimizer.cls = OptimizerCls.adamw) ∧
      (hp0.optimizer = "sgd" → r.optimizer.cls = OptimizerCls.sgd) ∧
      (r.lr_scheduler.isSome = true ↔ hp0.lr_schedule = true)) :=
  ⟨Or.inl rfl, claim_C6 hp0 (Or.inl rfl)⟩

/-- C9: for every optimizer name other than `"adam"`, `"adamw"` and `"sgd"`,
`configure_optimizers` raises and constructs no optimizer, and the exception
actually raised is the `AttributeError` produced by evaluating
`self.optimizer` inside the error message, not the `ValueError` the raise
statement names. -/
theorem claim_C9 (hp : Hparams) (h1 : hp.optimizer ≠ "adam")
    (h2 : hp.optimizer ≠ "adamw") (h3 : hp.optimizer ≠ "sgd") :
    configure_optimizers hp
      = Except.error
          (PyError.attributeError "SimulationMassSpecGymModel" "optimizer") ∧
    (∀ r, configure_optimizers hp ≠ Except.ok r) ∧
    (∀ msg, configure_optimizers hp ≠ Except.error (PyError.valueError msg)) := by
  have hmain : configure_optimizers hp
      = Except.error
          (PyError.attributeError "SimulationMassSpecGymModel" "optimizer") := by
    simp only [configure_optimizers]
    rw [if_neg h1, if_neg h2, if_neg h3]
    rfl
  refine ⟨hmain, ?_, ?_⟩
  · intro r hr
    rw [hmain] at hr
    cases hr
  · intro msg hmsg
    rw [hmain] at hmsg
    cases hmsg

/-- Witness for C9 at the concrete hyperparameters `hp_bad`
(`optimizer = "rmsprop"`). -/
theorem claim_C9_witness :
    (hp_bad.optimizer ≠ "adam" ∧ hp_bad.optimizer ≠ "adamw" ∧
      hp_bad.optimizer ≠ "sgd") ∧
    configure_optimizers hp_bad
      = Except.error
          (PyError.attributeError "SimulationMassSpecGymModel" "optimizer") :=
  ⟨⟨by decide, by decide, by decide⟩,
   (claim_C9 hp_bad (by decide) (by decide) (by decide)).1⟩

end MassSpecGym
